import Mathlib

/-!
Verification of the geometric manipulation engine of the whiteboard-online
repository (src/utils/geometry.ts and the erasure / transform / history logic
of src/App.tsx), shallowly embedded over exact rational arithmetic.

JavaScript numbers are modelled as `ℚ`.  The transcendental library functions
(`Math.sqrt` / `Math.hypot`, `Math.cos`, `Math.sin`, `Math.atan2`, `Math.PI`)
are modelled by computable rational stand-ins declared below; every theorem in
this file depends on those stand-ins only through properties they share with
the real functions (sqrt is exact on perfect squares, cos 0 = 1, sin 0 = 0,
atan2 is a function of its two arguments), never through their values at other
inputs.
-/

namespace WB

/-- Model of `Math.sqrt` on ℚ: exact on perfect squares of rationals
(see `ratSqrt_mul_self`), an arbitrary computable rational otherwise.
Negative inputs map to 0 (the code never takes a square root of a negative
number: all its radicands are sums of squares). -/
def ratSqrt (q : ℚ) : ℚ :=
  if q ≤ 0 then 0 else (Nat.sqrt q.num.toNat : ℚ) / (Nat.sqrt q.den : ℚ)

/-- Model of `Math.hypot(dx, dy)`. -/
def hypot (dx dy : ℚ) : ℚ := ratSqrt (dx * dx + dy * dy)

/-- Model of `Math.cos`: a computable rational stand-in (truncated Taylor
series), exact at 0, which is the only input at which any theorem below
depends on its value. -/
def ratCos (x : ℚ) : ℚ := 1 - x ^ 2 / 2 + x ^ 4 / 24

/-- Model of `Math.sin`: a computable rational stand-in (truncated Taylor
series), exact at 0. -/
def ratSin (x : ℚ) : ℚ := x - x ^ 3 / 6 + x ^ 5 / 120

/-- Model of `Math.atan2(y, x)`: the Fowler "diamond angle", a computable
rational function that is monotone in the true angle.  The theorems below use
only that it is a function of the pair `(y, x)`. -/
def ratAtan2 (y x : ℚ) : ℚ :=
  if 0 ≤ y then
    if 0 ≤ x then y / (x + y) else 1 + (-x) / ((-x) + y)
  else
    if x < 0 then 2 + (-y) / ((-x) + (-y)) else 3 + x / (x + (-y))

/-- Model of `Math.PI`: a rational stand-in; no theorem depends on its value. -/
def ratPi : ℚ := 3141592653589793 / 1000000000000000

/-- Model of `Math.max(1, Math.ceil(q))` used for sampling-step counts. -/
def natCeil (q : ℚ) : ℕ := ⌈q⌉.toNat

/-! ### Data model (src/types.ts) -/

/-- A world-space point `{x, y}`. -/
structure Point where
  x : ℚ
  y : ℚ
deriving DecidableEq

/-- The `DrawingTool` union type of src/types.ts. -/
inductive DrawingTool where
  | pen
  | eraser
  | rectangle
  | circle
  | line
  | triangle
  | dashedLine
deriving DecidableEq

/-- The `Stroke` interface of src/types.ts. -/
structure Stroke where
  id : String
  points : List Point
  color : String
  lineWidth : ℚ
  tool : DrawingTool
deriving DecidableEq

/-- The `ImageTransform` interface of src/types.ts (rotation in radians). -/
structure ImageTransform where
  x : ℚ
  y : ℚ
  width : ℚ
  height : ℚ
  rotation : ℚ
deriving DecidableEq

/-- The `CanvasImage` interface of src/types.ts; `dataUrl` is an opaque string. -/
structure CanvasImage where
  id : String
  dataUrl : String
  transform : ImageTransform
deriving DecidableEq

/-- The `Rect` record type of src/utils/geometry.ts. -/
structure Rect where
  x : ℚ
  y : ℚ
  width : ℚ
  height : ℚ
deriving DecidableEq

/-! ### src/utils/geometry.ts -/

/-- Fold computing the min/max envelope of a point list, as in the
`stroke.points.forEach` loop of `getStrokeBounds`.  The source initialises the
accumulator with `±Infinity`; starting the fold from the first point of the
(nonempty) list yields the same envelope. -/
def pointsEnvelope (p : Point) (rest : List Point) : Rect :=
  let e := rest.foldl
    (fun (acc : ℚ × ℚ × ℚ × ℚ) q =>
      (min acc.1 q.x, min acc.2.1 q.y, max acc.2.2.1 q.x, max acc.2.2.2 q.y))
    (p.x, p.y, p.x, p.y)
  { x := e.1, y := e.2.1, width := e.2.2.1 - e.1, height := e.2.2.2 - e.2.1 }

/-- `getStrokeBounds` of src/utils/geometry.ts. -/
def getStrokeBounds (stroke : Stroke) : Option Rect :=
  match stroke.points with
  | [] => none
  | p :: rest =>
    if stroke.tool = DrawingTool.rectangle ∨ stroke.tool = DrawingTool.line ∨
        stroke.tool = DrawingTool.triangle ∨ stroke.tool = DrawingTool.dashedLine then
      match rest with
      | [] => none
      | e :: _ =>
        let minX := min p.x e.x
        let minY := min p.y e.y
        let maxX := max p.x e.x
        let maxY := max p.y e.y
        some { x := minX, y := minY, width := maxX - minX, height := maxY - minY }
    else if stroke.tool = DrawingTool.circle then
      match rest with
      | [] => none
      | e :: _ =>
        let radius := hypot (e.x - p.x) (e.y - p.y)
        some { x := p.x - radius, y := p.y - radius, width := radius * 2, height := radius * 2 }
    else
      some (pointsEnvelope p rest)

/-- `doRectsIntersect` of src/utils/geometry.ts. -/
def doRectsIntersect (r1 r2 : Rect) : Bool :=
  !(decide (r2.x > r1.x + r1.width) || decide (r2.x + r2.width < r1.x) ||
    decide (r2.y > r1.y + r1.height) || decide (r2.y + r2.height < r1.y))

/-- `pDistanceToSegmentSquared` of src/utils/geometry.ts. -/
def pDistanceToSegmentSquared (p a b : Point) : ℚ :=
  let l2 := (a.x - b.x) ^ 2 + (a.y - b.y) ^ 2
  if l2 = 0 then (p.x - a.x) ^ 2 + (p.y - a.y) ^ 2
  else
    let t := ((p.x - a.x) * (b.x - a.x) + (p.y - a.y) * (b.y - a.y)) / l2
    let tc := max 0 (min 1 t)
    let projX := a.x + tc * (b.x - a.x)
    let projY := a.y + tc * (b.y - a.y)
    (p.x - projX) ^ 2 + (p.y - projY) ^ 2

/-- `isPointErased` of src/utils/geometry.ts.  The `for` loop over the eraser
segments with an early `return true` is an `any` over the segment indices. -/
def isPointErased (point : Point) (eraserStroke : Stroke) (pointRadius : ℚ) : Bool :=
  let totalRadius := eraserStroke.lineWidth / 2 + pointRadius
  let totalRadiusSq := totalRadius * totalRadius
  if eraserStroke.points.length = 1 then
    let p := eraserStroke.points.getD 0 ⟨0, 0⟩
    decide ((point.x - p.x) ^ 2 + (point.y - p.y) ^ 2 < totalRadiusSq)
  else
    (List.range (eraserStroke.points.length - 1)).any fun i =>
      decide (pDistanceToSegmentSquared point (eraserStroke.points.getD i ⟨0, 0⟩)
        (eraserStroke.points.getD (i + 1) ⟨0, 0⟩) < totalRadiusSq)

/-- `rotatePoint` of src/utils/geometry.ts. -/
def rotatePoint (point center : Point) (angle : ℚ) : Point :=
  let c := ratCos angle
  let s := ratSin angle
  let tx := point.x - center.x
  let ty := point.y - center.y
  { x := tx * c - ty * s + center.x, y := tx * s + ty * c + center.y }

/-- `scalePoint` of src/utils/geometry.ts. -/
def scalePoint (point origin : Point) (scale : ℚ) : Point :=
  { x := (point.x - origin.x) * scale + origin.x,
    y := (point.y - origin.y) * scale + origin.y }

/-- `isPointOnStroke` of src/utils/geometry.ts, embedded as a fallible
function: `none` models the `TypeError` the JavaScript source throws when it
destructures `const [start, end] = stroke.points` on a list that is too short
for the tool and then reads a field of `undefined`.  The `eraser` tool has no
`case` in the source `switch`, so it falls through to `return false`. -/
def isPointOnStroke (point : Point) (stroke : Stroke) (tolerance : ℚ) : Option Bool :=
  let pointRadius := stroke.lineWidth / 2
  let totalRadius := tolerance + pointRadius
  let totalRadiusSq := totalRadius * totalRadius
  match stroke.tool with
  | DrawingTool.pen | DrawingTool.line | DrawingTool.dashedLine =>
    some ((List.range (stroke.points.length - 1)).any fun i =>
      decide (pDistanceToSegmentSquared point (stroke.points.getD i ⟨0, 0⟩)
        (stroke.points.getD (i + 1) ⟨0, 0⟩) < totalRadiusSq))
  | DrawingTool.rectangle =>
    match stroke.points with
    | start :: e :: _ =>
      let p1 : Point := ⟨start.x, start.y⟩
      let p2 : Point := ⟨e.x, start.y⟩
      let p3 : Point := ⟨e.x, e.y⟩
      let p4 : Point := ⟨start.x, e.y⟩
      some (decide (pDistanceToSegmentSquared point p1 p2 < totalRadiusSq) ||
        decide (pDistanceToSegmentSquared point p2 p3 < totalRadiusSq) ||
        decide (pDistanceToSegmentSquared point p3 p4 < totalRadiusSq) ||
        decide (pDistanceToSegmentSquared point p4 p1 < totalRadiusSq))
    | _ => none
  | DrawingTool.triangle =>
    match stroke.points with
    | start :: e :: _ =>
      let minX := min start.x e.x
      let minY := min start.y e.y
      let maxX := max start.x e.x
      let maxY := max start.y e.y
      let p1 : Point := ⟨(minX + maxX) / 2, minY⟩
      let p2 : Point := ⟨maxX, maxY⟩
      let p3 : Point := ⟨minX, maxY⟩
      some (decide (pDistanceToSegmentSquared point p1 p2 < totalRadiusSq) ||
        decide (pDistanceToSegmentSquared point p2 p3 < totalRadiusSq) ||
        decide (pDistanceToSegmentSquared point p3 p1 < totalRadiusSq))
    | _ => none
  | DrawingTool.circle =>
    match stroke.points with
    | center :: edge :: _ =>
      let radius := hypot (edge.x - center.x) (edge.y - center.y)
      let distToCenterSq := (point.x - center.x) ^ 2 + (point.y - center.y) ^ 2
      some (decide (|ratSqrt distToCenterSq - radius| < totalRadius))
    | _ => none
  | DrawingTool.eraser => some false

/-! ### Erasure engine (`applyErasure` of src/App.tsx) -/

/-- The inner interpolation loop of the pen-stroke branch of `applyErasure`
(App.tsx lines 301-314): whether any interior sample of the segment
`p1 → p2`, taken at the fixed 1-world-unit `interpolationStep`, is erased.
The source's `for (let step = 1; step < numSteps; step++)` with an early
`return`-like break is an `any` over the interior step indices. -/
def segErasedBetween (eraserStroke : Stroke) (pointRadius : ℚ) (p1 p2 : Point) : Bool :=
  let segmentLength := hypot (p2.x - p1.x) (p2.y - p1.y)
  let numSteps := max 1 (natCeil segmentLength)
  if 1 < numSteps then
    (List.range (numSteps - 1)).any fun i =>
      let t := ((i : ℚ) + 1) / (numSteps : ℚ)
      isPointErased ⟨p1.x + (p2.x - p1.x) * t, p1.y + (p2.y - p1.y) * t⟩ eraserStroke pointRadius
  else false

/-- The pen-stroke fragmentation loop of `applyErasure` (App.tsx lines
291-324): walk the original points, accumulate surviving points into the
current fragment, close the fragment (kept only when longer than one point)
on a transition into an erased region.  Returns the fragments and the
`madeCut` flag. -/
def penWalk (eraserStroke : Stroke) (pointRadius : ℚ) :
    List Point → List Point → List (List Point) → Bool → List (List Point) × Bool
  | [], cur, frags, cut => (if 1 < cur.length then frags ++ [cur] else frags, cut)
  | p1 :: rest, cur, frags, cut =>
    let isP1Erased := isPointErased p1 eraserStroke pointRadius
    let isSegmentErased :=
      match rest with
      | [] => false
      | p2 :: _ => segErasedBetween eraserStroke pointRadius p1 p2
    let cur1 := if !isP1Erased then cur ++ [p1] else cur
    if isP1Erased || isSegmentErased then
      penWalk eraserStroke pointRadius rest [] (if 1 < cur1.length then frags ++ [cur1] else frags) true
    else
      penWalk eraserStroke pointRadius rest cur1 frags cut

/-- Consecutive point pairs of a polyline. -/
def consecutiveSegments : List Point → List (Point × Point)
  | p1 :: p2 :: rest => (p1, p2) :: consecutiveSegments (p2 :: rest)
  | _ => []

/-- The polygon approximation of a circle used by `applyErasure`
(App.tsx lines 266-280): `max(30, ceil(radius / 3))` equal angular segments. -/
def circleSegments (center : Point) (radius : ℚ) : List (Point × Point) :=
  let numSegments := max 30 (natCeil (radius / 3))
  (List.range numSegments).map fun i =>
    let angle1 := ((i : ℚ) / (numSegments : ℚ)) * 2 * ratPi
    let angle2 := (((i : ℚ) + 1) / (numSegments : ℚ)) * 2 * ratPi
    (⟨center.x + radius * ratCos angle1, center.y + radius * ratSin angle1⟩,
     ⟨center.x + radius * ratCos angle2, center.y + radius * ratSin angle2⟩)

/-- The per-tool segment decomposition `switch` of `applyErasure`
(App.tsx lines 229-281).  Each `continue` for a stroke with too few points is
modelled by an empty segment list, which the caller skips exactly as the
source's `if (segments.length === 0) continue` does; the `eraser` tool has no
case and also yields no segments. -/
def strokeSegments (stroke : Stroke) : List (Point × Point) :=
  match stroke.tool, stroke.points with
  | DrawingTool.pen, ps => if ps.length < 2 then [] else consecutiveSegments ps
  | DrawingTool.line, p0 :: p1 :: _ => [(p0, p1)]
  | DrawingTool.dashedLine, p0 :: p1 :: _ => [(p0, p1)]
  | DrawingTool.rectangle, start :: e :: _ =>
    let p1 : Point := ⟨min start.x e.x, min start.y e.y⟩
    let p3 : Point := ⟨max start.x e.x, max start.y e.y⟩
    let p2 : Point := ⟨p3.x, p1.y⟩
    let p4 : Point := ⟨p1.x, p3.y⟩
    [(p1, p2), (p2, p3), (p3, p4), (p4, p1)]
  | DrawingTool.triangle, start :: e :: _ =>
    let minX := min start.x e.x
    let minY := min start.y e.y
    let maxX := max start.x e.x
    let maxY := max start.y e.y
    let p1 : Point := ⟨(minX + maxX) / 2, minY⟩
    let p2 : Point := ⟨maxX, maxY⟩
    let p3 : Point := ⟨minX, maxY⟩
    [(p1, p2), (p2, p3), (p3, p1)]
  | DrawingTool.circle, center :: edge :: _ =>
    circleSegments center (hypot (edge.x - center.x) (edge.y - center.y))
  | _, _ => []

/-- The shape-stroke fragmentation of one segment (App.tsx lines 326-343):
sample the segment at the 1-unit step, collect maximal runs of surviving
sampled points, keep runs longer than one point. -/
def sampleSegmentFragments (eraserStroke : Stroke) (pointRadius : ℚ) (seg : Point × Point) :
    List (List Point) :=
  let segmentLength := hypot (seg.2.x - seg.1.x) (seg.2.y - seg.1.y)
  let numSteps := max 1 (natCeil segmentLength)
  let st := (List.range (numSteps + 1)).foldl
    (fun (acc : List (List Point) × List Point) i =>
      let t := (i : ℚ) / (numSteps : ℚ)
      let point : Point := ⟨seg.1.x + (seg.2.x - seg.1.x) * t, seg.1.y + (seg.2.y - seg.1.y) * t⟩
      if !(isPointErased point eraserStroke pointRadius) then
        (acc.1, acc.2 ++ [point])
      else
        ((if 1 < acc.2.length then acc.1 ++ [acc.2] else acc.1), []))
    ([], [])
  if 1 < st.2.length then st.1 ++ [st.2] else st.1

/-- Total length of a segment list (the `originalPerimeter` reduce of
App.tsx line 345). -/
def segmentsLength (segs : List (Point × Point)) : ℚ :=
  segs.foldl (fun acc s => acc + hypot (s.2.x - s.1.x) (s.2.y - s.1.y)) 0

/-- Length of one sampled fragment (inner loop of App.tsx lines 346-352). -/
def fragmentLength (frag : List Point) : ℚ :=
  (consecutiveSegments frag).foldl (fun acc s => acc + hypot (s.2.x - s.1.x) (s.2.y - s.1.y)) 0

/-- Total length of all sampled fragments (the `newPerimeter` reduce). -/
def fragmentsLength (frags : List (List Point)) : ℚ :=
  frags.foldl (fun acc f => acc + fragmentLength f) 0

/-- The per-stroke body of the `applyErasure` loop (App.tsx lines 215-369):
`none` models every `continue` path (eraser-tool target, missing or
non-intersecting bounds, empty segment decomposition, or no cut made);
`some frags` carries the replacement fragments of a stroke whose id is marked
for deletion. -/
def eraseContribution (eraserStroke : Stroke) (eraserBounds : Rect) (stroke : Stroke) :
    Option (List (List Point)) :=
  if stroke.tool = DrawingTool.eraser then none
  else
    match getStrokeBounds stroke with
    | none => none
    | some strokeBounds =>
      if !(doRectsIntersect eraserBounds strokeBounds) then none
      else
        let pointRadius := stroke.lineWidth / 2
        let segments := strokeSegments stroke
        if segments.length = 0 then none
        else if stroke.tool = DrawingTool.pen then
          let w := penWalk eraserStroke pointRadius stroke.points [] [] false
          if w.2 then some w.1 else none
        else
          let newFragments := segments.flatMap (sampleSegmentFragments eraserStroke pointRadius)
          let originalPerimeter := segmentsLength segments
          let newPerimeter := fragmentsLength newFragments
          if 1 < |originalPerimeter - newPerimeter| then some newFragments else none

/-- `applyErasure` of App.tsx: the ids to delete and the replacement `pen`
strokes to insert.  The `crypto.randomUUID()` part of a replacement id is
modelled by a deterministic suffix; no claim below depends on the generated
id beyond the inherited fields around it. -/
def applyErasure (eraserStroke : Stroke) (currentStrokes : List Stroke) :
    List String × List Stroke :=
  match getStrokeBounds eraserStroke with
  | none => ([], [])
  | some eraserBounds =>
    (currentStrokes.filterMap fun stroke =>
      if (eraseContribution eraserStroke eraserBounds stroke).isSome then some stroke.id else none,
     currentStrokes.flatMap fun stroke =>
      match eraseContribution eraserStroke eraserBounds stroke with
      | some frags => frags.map fun fragPoints =>
          { stroke with tool := DrawingTool.pen, id := stroke.id ++ "#frag", points := fragPoints }
      | none => [])

/-! ### History store (src/App.tsx) -/

/-- One history snapshot `{strokes, images}`. -/
structure Snapshot where
  strokes : List Stroke
  images : List CanvasImage
deriving DecidableEq

/-- The `history` array plus the `historyIndex` of App.tsx. -/
structure HistoryState where
  snapshots : List Snapshot
  index : ℕ
deriving DecidableEq

/-- `recordNewHistoryState` of App.tsx: truncate the snapshot list after the
current index, append the new snapshot, advance the index. -/
def recordNewHistoryState (h : HistoryState) (s : Snapshot) : HistoryState :=
  { snapshots := h.snapshots.take (h.index + 1) ++ [s], index := h.index + 1 }

/-- `handleUndo` of App.tsx, restricted to its effect on the history state. -/
def handleUndo (h : HistoryState) : HistoryState :=
  if 0 < h.index then { h with index := h.index - 1 } else h

/-- `handleRedo` of App.tsx: guard `historyIndex < history.length - 1`.
JavaScript evaluates `length - 1` in ℤ; for the empty list the truncated ℕ
subtraction used here makes the guard false exactly as `-1` does. -/
def handleRedo (h : HistoryState) : HistoryState :=
  if h.index < h.snapshots.length - 1 then { h with index := h.index + 1 } else h

/-- The snapshot the store currently exposes (`history[historyIndex]`). -/
def currentSnapshot (h : HistoryState) : Option Snapshot := h.snapshots[h.index]?

/-! ### Stroke transform engine (`calculateTransformedStrokes` of src/App.tsx) -/

/-- A corner resize handle (the strings `tl`, `tr`, `bl`, `br`). -/
inductive Corner where
  | tl
  | tr
  | bl
  | br
deriving DecidableEq

/-- The stroke-transform gesture kinds of the `Action` union. -/
inductive Action where
  | dragging
  | rotatingStrokes
  | resizingStrokes
deriving DecidableEq

/-- The fields of `transformStartRef.current` read by the stroke transform. -/
structure StartState where
  startPoint : Point
  selectionCenter : Option Point
  initialBounds : Option Rect
  handle : Option Corner
  strokeIds : Option (List String)
deriving DecidableEq

/-- `handle.includes('l')` on the corner-handle strings. -/
def handleIncludesL (h : Corner) : Bool := decide (h = Corner.tl ∨ h = Corner.bl)

/-- `handle.includes('r')` on the corner-handle strings. -/
def handleIncludesR (h : Corner) : Bool := decide (h = Corner.tr ∨ h = Corner.br)

/-- `handle.includes('t')` on the corner-handle strings. -/
def handleIncludesT (h : Corner) : Bool := decide (h = Corner.tl ∨ h = Corner.tr)

/-- `handle.includes('b')` on the corner-handle strings. -/
def handleIncludesB (h : Corner) : Bool := decide (h = Corner.bl ∨ h = Corner.br)

/-- The anchor of a stroke-resize gesture: the bounding-box corner diagonally
opposite the grabbed handle (App.tsx lines 986-989). -/
def anchorOf (h : Corner) (b : Rect) : Point :=
  ⟨if handleIncludesL h then b.x + b.width else b.x,
   if handleIncludesT h then b.y + b.height else b.y⟩

/-- The `dx, dy, rotation, scale, anchor` quintuple computed at the top of
`calculateTransformedStrokes`. -/
structure GestureParams where
  dx : ℚ
  dy : ℚ
  rotation : ℚ
  scale : ℚ
  anchor : Option Point
deriving DecidableEq

/-- The `switch (currentAction)` of `calculateTransformedStrokes`
(App.tsx lines 969-997). -/
def gestureParams (currentCoords : Point) (ss : StartState) (currentAction : Action) :
    GestureParams :=
  match currentAction with
  | Action.dragging =>
    ⟨currentCoords.x - ss.startPoint.x, currentCoords.y - ss.startPoint.y, 0, 1, none⟩
  | Action.rotatingStrokes =>
    match ss.selectionCenter with
    | some c =>
      let angleStart := ratAtan2 (ss.startPoint.y - c.y) (ss.startPoint.x - c.x)
      let angleCurrent := ratAtan2 (currentCoords.y - c.y) (currentCoords.x - c.x)
      ⟨0, 0, angleCurrent - angleStart, 1, none⟩
    | none => ⟨0, 0, 0, 1, none⟩
  | Action.resizingStrokes =>
    match ss.initialBounds, ss.handle with
    | some b, some hd =>
      let anchor := anchorOf hd b
      let initialDist := hypot (ss.startPoint.x - anchor.x) (ss.startPoint.y - anchor.y)
      if 0 < initialDist then
        let currentDist := hypot (currentCoords.x - anchor.x) (currentCoords.y - anchor.y)
        ⟨0, 0, 0, max (1 / 100) (currentDist / initialDist), some anchor⟩
      else ⟨0, 0, 0, 1, some anchor⟩
    | _, _ => ⟨0, 0, 0, 1, none⟩

/-- The per-point map of `calculateTransformedStrokes` (App.tsx lines
1015-1031): scale about the anchor, rotate about the selection center, then
translate. -/
def applyGesturePoint (P : GestureParams) (selectionCenter : Option Point) (p : Point) : Point :=
  let c := ratCos P.rotation
  let s := ratSin P.rotation
  let s1 : Point :=
    match P.anchor with
    | some a =>
      if P.scale ≠ 1 then ⟨a.x + (p.x - a.x) * P.scale, a.y + (p.y - a.y) * P.scale⟩ else p
    | none => p
  let s2 : Point :=
    match selectionCenter with
    | some ctr =>
      if P.rotation ≠ 0 then
        let tx := s1.x - ctr.x
        let ty := s1.y - ctr.y
        ⟨tx * c - ty * s + ctr.x, tx * s + ty * c + ctr.y⟩
      else s1
    | none => s1
  ⟨s2.x + P.dx, s2.y + P.dy⟩

/-- The `lastStrokeProperties` map captured at gesture start, as an
association list from stroke id to `{points, lineWidth}`. -/
def propsLookup (props : List (String × List Point × ℚ)) (id : String) :
    Option (List Point × ℚ) :=
  (props.find? fun e => e.1 == id).map fun e => e.2

/-- The body of the `for (const id of strokeIds)` loop of
`calculateTransformedStrokes` (App.tsx lines 1008-1063): the transformed
stroke contributed by one selected id, `none` when the stroke or its captured
start properties are missing.  In the rectangle special case the source reads
`selectionCenter.x` without a null check; that branch is only reachable from
a rotation gesture whose nonzero angle requires a selection center, so the
default supplied to `Option.getD` here is never the value actually used. -/
def transformOneStroke (strokes : List Stroke) (props : List (String × List Point × ℚ))
    (P : GestureParams) (ss : StartState) (currentAction : Action) (id : String) :
    Option Stroke :=
  match strokes.find? (fun s => s.id == id), propsLookup props id with
  | some originalStroke, some (originalPoints, originalLineWidth) =>
    let newPoints := originalPoints.map (applyGesturePoint P ss.selectionCenter)
    let newStroke : Stroke :=
      { originalStroke with
        points := newPoints,
        lineWidth :=
          if currentAction = Action.resizingStrokes then originalLineWidth * P.scale
          else originalLineWidth }
    if currentAction = Action.rotatingStrokes ∧ newStroke.tool = DrawingTool.rectangle ∧
        newStroke.points.length = 2 then
      match originalPoints with
      | [start, e] =>
        let ctr := ss.selectionCenter.getD ⟨0, 0⟩
        let p1 : Point := ⟨min start.x e.x, min start.y e.y⟩
        let p3 : Point := ⟨max start.x e.x, max start.y e.y⟩
        let p2 : Point := ⟨p3.x, p1.y⟩
        let p4 : Point := ⟨p1.x, p3.y⟩
        let f : Point → Point := fun q =>
          let r := rotatePoint q ctr P.rotation
          ⟨r.x + P.dx, r.y + P.dy⟩
        some { newStroke with tool := DrawingTool.pen, points := [f p1, f p2, f p3, f p4, f p1] }
      | _ => some newStroke
    else some newStroke
  | _, _ => none

/-- `calculateTransformedStrokes` of App.tsx.  The strokes list and the
captured start properties stand for `currentProject.strokes` and
`lastStrokeProperties.current`; iteration over the id `Set` is modelled as
iteration over an id list in insertion order. -/
def calculateTransformedStrokes (strokes : List Stroke)
    (props : List (String × List Point × ℚ)) (currentCoords : Point)
    (startState : Option StartState) (currentAction : Action) : List Stroke :=
  match startState with
  | none => []
  | some ss =>
    let P := gestureParams currentCoords ss currentAction
    if P.dx = 0 ∧ P.dy = 0 ∧ P.rotation = 0 ∧ P.scale = 1 then
      strokes.filter fun st =>
        match ss.strokeIds with
        | some ids => ids.contains st.id
        | none => false
    else
      match ss.strokeIds with
      | none => []
      | some ids => ids.filterMap (transformOneStroke strokes props P ss currentAction)

/-! ### Single-image resize commit (`handleMouseUp`, src/App.tsx) -/

/-- The pointer delta of an image-resize gesture expressed in the image's
local (unrotated) frame (App.tsx lines 1642-1647). -/
def imageLocalDelta (initial : ImageTransform) (startPoint coords : Point) : ℚ × ℚ :=
  let dx := coords.x - startPoint.x
  let dy := coords.y - startPoint.y
  let s := ratSin (-initial.rotation)
  let c := ratCos (-initial.rotation)
  (dx * c - dy * s, dx * s + dy * c)

/-- The aspect-corrected proposed width/height of an image-resize gesture,
before the 20-unit minimum clamp (App.tsx lines 1648-1661).  The source's
`['tr', 'tl', 'br', 'bl'].includes(handle)` guard is always true on the
corner-handle type. -/
def imageProposedSize (initial : ImageTransform) (handle : Corner) (startPoint coords : Point) :
    ℚ × ℚ :=
  let ld := imageLocalDelta initial startPoint coords
  let width := initial.width
  let height := initial.height
  let aspectRatio := width / height
  let nw :=
    match handle with
    | Corner.tr => (width + ld.1, height - ld.2)
    | Corner.tl => (width - ld.1, height - ld.2)
    | Corner.br => (width + ld.1, height + ld.2)
    | Corner.bl => (width - ld.1, height + ld.2)
  if |nw.1 - width| > |nw.2 - height| then (nw.1, nw.1 / aspectRatio)
  else (nw.2 * aspectRatio, nw.2)

/-- The committed transform of a single-image corner-resize gesture
(`handleMouseUp`, App.tsx lines 1640-1679): clamp the proposed size at the
20-unit minimum, then shift the center so the corner opposite the handle
stays fixed, rotated back into world space. -/
def resizeImageCommit (initial : ImageTransform) (handle : Corner) (startPoint coords : Point) :
    ImageTransform :=
  let p := imageProposedSize initial handle startPoint coords
  let newWidth := max 20 p.1
  let newHeight := max 20 p.2
  let dWidth := newWidth - initial.width
  let dHeight := newHeight - initial.height
  let dxCenter := (if handleIncludesL handle then -(dWidth / 2) else 0) +
    (if handleIncludesR handle then dWidth / 2 else 0)
  let dyCenter := (if handleIncludesT handle then -(dHeight / 2) else 0) +
    (if handleIncludesB handle then dHeight / 2 else 0)
  let sinR := ratSin initial.rotation
  let cosR := ratCos initial.rotation
  { initial with
    x := initial.x + (dxCenter * cosR - dyCenter * sinR),
    y := initial.y + (dxCenter * sinR + dyCenter * cosR),
    width := newWidth,
    height := newHeight }

/-! ### Statement vocabulary and concrete fixtures -/

/-- Both strokes have a bounding box and the boxes do not intersect (the
broad-phase cull condition of `applyErasure`, phrased as a predicate on the
two strokes). -/
def boundsDisjoint (eraserStroke stroke : Stroke) : Bool :=
  match getStrokeBounds eraserStroke, getStrokeBounds stroke with
  | some eb, some sb => !doRectsIntersect eb sb
  | _, _ => false

/-- Smallest x-coordinate of a nonempty point list (0 for the empty list). -/
def minX : List Point → ℚ
  | [] => 0
  | p :: rest => rest.foldl (fun m q => min m q.x) p.x

/-- Largest x-coordinate of a nonempty point list (0 for the empty list). -/
def maxX : List Point → ℚ
  | [] => 0
  | p :: rest => rest.foldl (fun m q => max m q.x) p.x

/-- The spec's "covering approximately x ∈ [a, b], boundary within the 1-unit
sampling step": nonempty, with both extreme x-coordinates within 1 unit of
the stated interval ends. -/
def coversApprox (ps : List Point) (a b : ℚ) : Prop :=
  ps ≠ [] ∧ |minX ps - a| ≤ 1 ∧ |maxX ps - b| ≤ 1

/-- The single-point eraser stroke of the spec's erasure-split example:
lineWidth 4, centered at (15, 0). -/
def eraserC1 : Stroke :=
  { id := "e", points := [⟨15, 0⟩], color := "white", lineWidth := 4,
    tool := DrawingTool.eraser }

/-- The straight pen stroke of the spec's erasure-split example. -/
def penC1 : Stroke :=
  { id := "s1", points := [⟨0, 0⟩, ⟨10, 0⟩, ⟨20, 0⟩, ⟨30, 0⟩], color := "black",
    lineWidth := 2, tool := DrawingTool.pen }

/-- A rectangle stroke with a single point: fewer points than its tool
requires. -/
def rectOnePoint : Stroke :=
  { id := "r1", points := [⟨0, 0⟩], color := "black", lineWidth := 2,
    tool := DrawingTool.rectangle }

/-! ### Helper lemmas about the numeric stand-ins -/

/-- The model of `Math.sqrt` is exact on perfect squares of rationals. -/
theorem ratSqrt_mul_self (r : ℚ) (h : 0 ≤ r) : ratSqrt (r * r) = r := by
  rcases eq_or_lt_of_le h with h0 | h0
  · rw [← h0]
    simp [ratSqrt]
  · have hgt : ¬(r * r ≤ 0) := not_le.mpr (mul_pos h0 h0)
    unfold ratSqrt
    rw [if_neg hgt, Rat.mul_self_num r, Rat.mul_self_den r]
    have h1 : (r.num * r.num).toNat = r.num.natAbs * r.num.natAbs := by
      rw [← Int.natAbs_mul_self]
      exact Int.toNat_natCast _
    rw [h1, show r.num.natAbs * r.num.natAbs = r.num.natAbs ^ 2 by ring,
      show r.den * r.den = r.den ^ 2 by ring, Nat.sqrt_eq', Nat.sqrt_eq']
    have h3 : ((r.num.natAbs : ℕ) : ℚ) = (r.num : ℚ) := by
      rw [Int.cast_natAbs]
      exact congrArg (fun z : ℤ => (z : ℚ)) (abs_of_nonneg (Rat.num_nonneg.mpr h))
    rw [h3]
    exact Rat.num_div_den r

/-- Evaluation rule for the model of `Math.hypot` at inputs whose squared sum
is a perfect square. -/
theorem hypot_eval (dx dy r : ℚ) (h : 0 ≤ r) (he : dx * dx + dy * dy = r * r) :
    hypot dx dy = r := by
  rw [hypot, he, ratSqrt_mul_self r h]

/-- Concrete hypot value used by the erasure-split example. -/
theorem hypot_ten_zero : hypot (10 : ℚ) 0 = 10 :=
  hypot_eval 10 0 10 (by norm_num) (by norm_num)

/-! ### C10: empty eraser point list -/

/-- C10: `isPointErased` with an eraser stroke whose points list is empty
returns false for every query point and every point radius — the single-point
branch does not apply and the segment loop has nothing to iterate over. -/
theorem pointErased_empty_eraser (er : Stroke) (h : er.points = []) (q : Point) (pr : ℚ) :
    isPointErased q er pr = false := by
  simp [isPointErased, h]

/-- Witness for C10 at a concrete empty-path eraser. -/
theorem pointErased_empty_eraser_witness :
    isPointErased ⟨3, 4⟩
      { id := "e0", points := [], color := "black", lineWidth := 6,
        tool := DrawingTool.eraser } 2 = false :=
  pointErased_empty_eraser _ rfl _ _

/-! ### C7: semantics of `isPointErased` -/

/-- C7: a single-point eraser stroke erases exactly the open disc of radius
`lineWidth / 2 + pointRadius` around its point; an eraser with two or more
points erases exactly the points within that combined radius of at least one
segment of its polyline path (phrased with squared distances, as the source
compares them). -/
theorem pointErased_spec (q : Point) (er : Stroke) (pr : ℚ) :
    (∀ p, er.points = [p] →
      (isPointErased q er pr = true ↔
        (q.x - p.x) ^ 2 + (q.y - p.y) ^ 2 <
          (er.lineWidth / 2 + pr) * (er.lineWidth / 2 + pr))) ∧
    (2 ≤ er.points.length →
      (isPointErased q er pr = true ↔
        ∃ i, i + 1 < er.points.length ∧
          pDistanceToSegmentSquared q (er.points.getD i ⟨0, 0⟩) (er.points.getD (i + 1) ⟨0, 0⟩) <
            (er.lineWidth / 2 + pr) * (er.lineWidth / 2 + pr))) := by
  constructor
  · intro p hp
    simp [isPointErased, hp]
  · intro hlen
    have h1 : ¬(er.points.length = 1) := by omega
    simp only [isPointErased, if_neg h1, List.any_eq_true, List.mem_range, decide_eq_true_eq]
    constructor
    · rintro ⟨i, hi, hd⟩
      exact ⟨i, by omega, hd⟩
    · rintro ⟨i, hi, hd⟩
      exact ⟨i, by omega, hd⟩

/-- Witness for C7: a point inside the disc of a concrete single-point eraser
is erased, and a point near the first segment of a concrete two-point eraser
is erased. -/
theorem pointErased_spec_witness :
    isPointErased ⟨14, 0⟩
      { id := "e1", points := [⟨15, 0⟩], color := "w", lineWidth := 4,
        tool := DrawingTool.eraser } 1 = true ∧
    isPointErased ⟨5, 1⟩
      { id := "e2", points := [⟨0, 0⟩, ⟨10, 0⟩], color := "w", lineWidth := 4,
        tool := DrawingTool.eraser } 1 = true := by
  constructor
  · exact ((pointErased_spec ⟨14, 0⟩
      { id := "e1", points := [⟨15, 0⟩], color := "w", lineWidth := 4,
        tool := DrawingTool.eraser } 1).1 ⟨15, 0⟩ rfl).mpr (by norm_num)
  · exact ((pointErased_spec ⟨5, 1⟩
      { id := "e2", points := [⟨0, 0⟩, ⟨10, 0⟩], color := "w", lineWidth := 4,
        tool := DrawingTool.eraser } 1).2 (by norm_num)).mpr
      ⟨0, by norm_num, by norm_num [pDistanceToSegmentSquared]⟩

/-! ### C2: malformed geometry in bounds and hit-testing -/

/-- C2 (divergence witness): for a rectangle stroke with a single point,
`getStrokeBounds` returns `none` as the claim states, but `isPointOnStroke`
crashes (modelled by `none`) instead of returning `false`: the source
destructures `const [start, end] = stroke.points` without a length guard and
reads `end.x` of `undefined`. -/
theorem malformed_rectangle_hitTest_crashes :
    getStrokeBounds rectOnePoint = none ∧ isPointOnStroke ⟨0, 0⟩ rectOnePoint 5 = none := by
  constructor <;> rfl

/-! ### C8: erasure skips non-intersecting strokes and eraser strokes -/

/-- C8: a target stroke of tool `eraser`, or one whose bounding box does not
intersect the eraser's bounding box, is left untouched by `applyErasure`: on
its own it yields no deletion and no fragments, and removing it from the
stroke list does not change the result at all. -/
theorem erasure_skips_nonintersecting (er st : Stroke)
    (h : st.tool = DrawingTool.eraser ∨ boundsDisjoint er st = true) :
    applyErasure er [st] = ([], []) ∧
    ∀ rest : List Stroke, applyErasure er (st :: rest) = applyErasure er rest := by
  have hc : ∀ eb, getStrokeBounds er = some eb → eraseContribution er eb st = none := by
    intro eb heb
    rcases h with h | h
    · simp [eraseContribution, h]
    · unfold boundsDisjoint at h
      rw [heb] at h
      cases hsb : getStrokeBounds st with
      | none => simp [eraseContribution, hsb]
      | some sb =>
        rw [hsb] at h
        simp only [Bool.not_eq_true'] at h
        simp [eraseContribution, hsb, h]
  constructor
  · cases heb : getStrokeBounds er with
    | none => simp [applyErasure, heb]
    | some eb => simp [applyErasure, heb, hc eb heb]
  · intro rest
    cases heb : getStrokeBounds er with
    | none => simp [applyErasure, heb]
    | some eb => simp [applyErasure, heb, hc eb heb]

/-- Witness for C8: a two-point eraser far away from a pen stroke deletes
nothing and leaves the stroke list contribution unchanged. -/
theorem erasure_skips_nonintersecting_witness :
    applyErasure
      { id := "e3", points := [⟨0, 0⟩, ⟨1, 0⟩], color := "w", lineWidth := 4,
        tool := DrawingTool.eraser }
      [{ id := "far", points := [⟨100, 100⟩, ⟨110, 100⟩], color := "b", lineWidth := 2,
         tool := DrawingTool.pen }] = ([], []) :=
  (erasure_skips_nonintersecting _ _
    (Or.inr (by simp [boundsDisjoint, getStrokeBounds, pointsEnvelope, doRectsIntersect]))).1

/-! ### C3: history linearity -/

/-- C3: from any valid history state, commit A, commit B, undo exposes A;
committing C from there discards B, exposes C, and makes redo a no-op. -/
theorem history_linear (h : HistoryState) (A B C : Snapshot)
    (hlt : h.index < h.snapshots.length) :
    currentSnapshot (handleUndo (recordNewHistoryState (recordNewHistoryState h A) B)) = some A ∧
    currentSnapshot (recordNewHistoryState
      (handleUndo (recordNewHistoryState (recordNewHistoryState h A) B)) C) = some C ∧
    handleRedo (recordNewHistoryState
        (handleUndo (recordNewHistoryState (recordNewHistoryState h A) B)) C) =
      recordNewHistoryState
        (handleUndo (recordNewHistoryState (recordNewHistoryState h A) B)) C := by
  have hlen1 : (h.snapshots.take (h.index + 1)).length = h.index + 1 := by
    rw [List.length_take]; omega
  have h1 : recordNewHistoryState h A =
      ⟨h.snapshots.take (h.index + 1) ++ [A], h.index + 1⟩ := rfl
  have hlenA : (h.snapshots.take (h.index + 1) ++ [A]).length = h.index + 2 := by
    simp [hlen1]
  have h2 : recordNewHistoryState (recordNewHistoryState h A) B =
      ⟨(h.snapshots.take (h.index + 1) ++ [A]) ++ [B], h.index + 2⟩ := by
    rw [h1]
    unfold recordNewHistoryState
    simp only
    rw [List.take_of_length_le hlenA.le]
  have h3 : handleUndo (recordNewHistoryState (recordNewHistoryState h A) B) =
      ⟨(h.snapshots.take (h.index + 1) ++ [A]) ++ [B], h.index + 1⟩ := by
    rw [h2]
    unfold handleUndo
    rw [if_pos (Nat.succ_pos _)]
    rfl
  have hcurA : currentSnapshot (handleUndo (recordNewHistoryState (recordNewHistoryState h A) B)) =
      some A := by
    rw [h3]
    unfold currentSnapshot
    simp only
    have hlt2 : h.index + 1 < (List.take (h.index + 1) h.snapshots ++ [A]).length := by
      rw [hlenA]; omega
    rw [List.getElem?_append_left hlt2, List.getElem?_append_right hlen1.le, hlen1]
    simp
  have h4 : recordNewHistoryState
      (handleUndo (recordNewHistoryState (recordNewHistoryState h A) B)) C =
      ⟨(h.snapshots.take (h.index + 1) ++ [A]) ++ [C], h.index + 2⟩ := by
    rw [h3]
    unfold recordNewHistoryState
    simp only
    rw [List.take_left' hlenA]
  refine ⟨hcurA, ?_, ?_⟩
  · rw [h4]
    unfold currentSnapshot
    simp only
    rw [List.getElem?_append_right hlenA.le]
    simp [hlenA]
  · rw [h4]
    unfold handleRedo
    rw [if_neg (by simp [hlenA])]

/-- Witness for C3 at a concrete one-snapshot history. -/
theorem history_linear_witness :
    currentSnapshot (handleUndo (recordNewHistoryState
      (recordNewHistoryState (⟨[⟨[], []⟩], 0⟩ : HistoryState) ⟨[], []⟩) ⟨[], []⟩)) =
      some ⟨[], []⟩ ∧
    currentSnapshot (recordNewHistoryState (handleUndo (recordNewHistoryState
      (recordNewHistoryState (⟨[⟨[], []⟩], 0⟩ : HistoryState) ⟨[], []⟩) ⟨[], []⟩)) ⟨[], []⟩) =
      some ⟨[], []⟩ ∧
    handleRedo (recordNewHistoryState (handleUndo (recordNewHistoryState
      (recordNewHistoryState (⟨[⟨[], []⟩], 0⟩ : HistoryState) ⟨[], []⟩) ⟨[], []⟩)) ⟨[], []⟩) =
      recordNewHistoryState (handleUndo (recordNewHistoryState
      (recordNewHistoryState (⟨[⟨[], []⟩], 0⟩ : HistoryState) ⟨[], []⟩) ⟨[], []⟩)) ⟨[], []⟩ :=
  history_linear ⟨[⟨[], []⟩], 0⟩ ⟨[], []⟩ ⟨[], []⟩ ⟨[], []⟩ (by simp)

/-! ### C9: the stroke transform is the identity at the gesture start point -/

/-- C9: for every gesture kind and start state, evaluating
`calculateTransformedStrokes` at the gesture's own start point (so dx = dy = 0,
rotation = 0, scale = 1) returns the currently selected strokes themselves,
unchanged. -/
theorem transform_identity_at_start (strokes : List Stroke)
    (props : List (String × List Point × ℚ)) (ss : StartState) (action : Action) :
    calculateTransformedStrokes strokes props ss.startPoint (some ss) action =
      strokes.filter fun st =>
        match ss.strokeIds with
        | some ids => ids.contains st.id
        | none => false := by
  have hcond : (gestureParams ss.startPoint ss action).dx = 0 ∧
      (gestureParams ss.startPoint ss action).dy = 0 ∧
      (gestureParams ss.startPoint ss action).rotation = 0 ∧
      (gestureParams ss.startPoint ss action).scale = 1 := by
    cases action with
    | dragging => simp [gestureParams]
    | rotatingStrokes => cases hsc : ss.selectionCenter <;> simp [gestureParams, hsc]
    | resizingStrokes =>
      cases hib : ss.initialBounds with
      | none => simp [gestureParams, hib]
      | some b =>
        cases hh : ss.handle with
        | none => simp [gestureParams, hib, hh]
        | some hd =>
          simp only [gestureParams, hib, hh]
          split
          · next hpos =>
            refine ⟨rfl, rfl, rfl, ?_⟩
            simp only
            rw [div_self (ne_of_gt hpos)]
            exact max_eq_right (by norm_num)
          · exact ⟨rfl, rfl, rfl, rfl⟩
  obtain ⟨hdx, hdy, hrot, hscale⟩ := hcond
  unfold calculateTransformedStrokes
  simp only [hdx, hdy, hrot, hscale, and_self, if_pos, true_and]

/-! ### C6: the resize anchor is a fixed point -/

/-- C6: for every stroke-resize gesture, the anchor (the bounding-box corner
diagonally opposite the grabbed handle) is a fixed point of the per-point
transformation, whatever scale factor the gesture computes. -/
theorem resize_anchor_fixed (coords : Point) (ss : StartState) (b : Rect) (hd : Corner)
    (hb : ss.initialBounds = some b) (hh : ss.handle = some hd) :
    (gestureParams coords ss Action.resizingStrokes).anchor = some (anchorOf hd b) ∧
    applyGesturePoint (gestureParams coords ss Action.resizingStrokes) ss.selectionCenter
      (anchorOf hd b) = anchorOf hd b := by
  have fixed : ∀ P : GestureParams, P.dx = 0 → P.dy = 0 → P.rotation = 0 →
      P.anchor = some (anchorOf hd b) →
      applyGesturePoint P ss.selectionCenter (anchorOf hd b) = anchorOf hd b := by
    intro P h1 h2 h3 h4
    cases hsc : ss.selectionCenter <;>
      simp [applyGesturePoint, h4, h1, h2, h3, hsc, sub_self]
  constructor
  · simp only [gestureParams, hb, hh]
    split <;> rfl
  · have hP : ∀ q : GestureParams,
        gestureParams coords ss Action.resizingStrokes = q →
        q.dx = 0 ∧ q.dy = 0 ∧ q.rotation = 0 ∧ q.anchor = some (anchorOf hd b) := by
      intro q hq
      rw [← hq]
      simp only [gestureParams, hb, hh]
      split <;> exact ⟨rfl, rfl, rfl, rfl⟩
    obtain ⟨e1, e2, e3, e4⟩ := hP _ rfl
    exact fixed _ e1 e2 e3 e4

/-- Witness for C6 at a concrete resize gesture: anchor of the `tr` handle
on the box `[0,4]×[0,4]` is its bottom-left-derived corner `(0, 4)`, and the
gesture's per-point map keeps it fixed. -/
theorem resize_anchor_fixed_witness :
    (gestureParams ⟨7, 8⟩
      (⟨⟨10, 10⟩, none, some ⟨0, 0, 4, 4⟩, some Corner.tr, none⟩ : StartState)
      Action.resizingStrokes).anchor = some (anchorOf Corner.tr ⟨0, 0, 4, 4⟩) ∧
    applyGesturePoint
      (gestureParams ⟨7, 8⟩
        (⟨⟨10, 10⟩, none, some ⟨0, 0, 4, 4⟩, some Corner.tr, none⟩ : StartState)
        Action.resizingStrokes)
      none (anchorOf Corner.tr ⟨0, 0, 4, 4⟩) = anchorOf Corner.tr ⟨0, 0, 4, 4⟩ :=
  resize_anchor_fixed ⟨7, 8⟩ ⟨⟨10, 10⟩, none, some ⟨0, 0, 4, 4⟩, some Corner.tr, none⟩
    ⟨0, 0, 4, 4⟩ Corner.tr rfl rfl

/-! ### C5: rotating a two-point rectangle converts it to a closed pen stroke -/

/-- C5: in a rotate gesture with a nonzero computed angle, a selected
rectangle stroke with two captured points becomes a `pen` stroke whose points
are the rectangle's four corners, each rotated about the selection pivot,
with the first rotated corner repeated as a closing fifth point; id, color
and lineWidth are unchanged. -/
theorem rotate_rectangle_to_pen
    (strokes : List Stroke) (props : List (String × List Point × ℚ)) (coords : Point)
    (ss : StartState) (id : String) (st : Stroke) (pstart pend : Point) (olw : ℚ)
    (c : Point) (rot : ℚ)
    (hfind : strokes.find? (fun s => s.id == id) = some st)
    (hprops : propsLookup props id = some ([pstart, pend], olw))
    (htool : st.tool = DrawingTool.rectangle)
    (hlw : olw = st.lineWidth)
    (hc : ss.selectionCenter = some c)
    (hrotdef : rot = (gestureParams coords ss Action.rotatingStrokes).rotation)
    (_hrot : rot ≠ 0) :
    transformOneStroke strokes props (gestureParams coords ss Action.rotatingStrokes) ss
        Action.rotatingStrokes id =
      some { id := st.id, color := st.color, lineWidth := st.lineWidth,
             tool := DrawingTool.pen,
             points := [
               rotatePoint ⟨min pstart.x pend.x, min pstart.y pend.y⟩ c rot,
               rotatePoint ⟨max pstart.x pend.x, min pstart.y pend.y⟩ c rot,
               rotatePoint ⟨max pstart.x pend.x, max pstart.y pend.y⟩ c rot,
               rotatePoint ⟨min pstart.x pend.x, max pstart.y pend.y⟩ c rot,
               rotatePoint ⟨min pstart.x pend.x, min pstart.y pend.y⟩ c rot] } := by
  have hdx : (gestureParams coords ss Action.rotatingStrokes).dx = 0 := by
    simp [gestureParams, hc]
  have hdy : (gestureParams coords ss Action.rotatingStrokes).dy = 0 := by
    simp [gestureParams, hc]
  unfold transformOneStroke
  rw [hfind, hprops]
  simp only
  rw [if_pos (by simp [htool])]
  simp only [hc, Option.getD_some, hdx, hdy, add_zero, ← hrotdef]
  simp [Stroke.mk.injEq, hlw, show ¬(Action.rotatingStrokes = Action.resizingStrokes) by decide]

/-- Witness for C5: rotating a concrete rectangle stroke by a concrete
quarter-turn-like gesture about the origin yields the closed pen
quadrilateral. -/
theorem rotate_rectangle_to_pen_witness :
    transformOneStroke
      [{ id := "r", points := [⟨0, 0⟩, ⟨4, 2⟩], color := "red", lineWidth := 3,
         tool := DrawingTool.rectangle }]
      [("r", ([⟨0, 0⟩, ⟨4, 2⟩], 3))]
      (gestureParams ⟨0, 1⟩
        (⟨⟨1, 0⟩, some ⟨0, 0⟩, none, none, some ["r"]⟩ : StartState) Action.rotatingStrokes)
      (⟨⟨1, 0⟩, some ⟨0, 0⟩, none, none, some ["r"]⟩ : StartState) Action.rotatingStrokes "r" =
      some { id := "r", color := "red", lineWidth := 3, tool := DrawingTool.pen,
             points := [
               rotatePoint ⟨min (0 : ℚ) 4, min (0 : ℚ) 2⟩ ⟨0, 0⟩ 1,
               rotatePoint ⟨max (0 : ℚ) 4, min (0 : ℚ) 2⟩ ⟨0, 0⟩ 1,
               rotatePoint ⟨max (0 : ℚ) 4, max (0 : ℚ) 2⟩ ⟨0, 0⟩ 1,
               rotatePoint ⟨min (0 : ℚ) 4, max (0 : ℚ) 2⟩ ⟨0, 0⟩ 1,
               rotatePoint ⟨min (0 : ℚ) 4, min (0 : ℚ) 2⟩ ⟨0, 0⟩ 1] } :=
  rotate_rectangle_to_pen
    [{ id := "r", points := [⟨0, 0⟩, ⟨4, 2⟩], color := "red", lineWidth := 3,
       tool := DrawingTool.rectangle }]
    [("r", ([⟨0, 0⟩, ⟨4, 2⟩], 3))] ⟨0, 1⟩
    ⟨⟨1, 0⟩, some ⟨0, 0⟩, none, none, some ["r"]⟩ "r"
    { id := "r", points := [⟨0, 0⟩, ⟨4, 2⟩], color := "red", lineWidth := 3,
      tool := DrawingTool.rectangle }
    ⟨0, 0⟩ ⟨4, 2⟩ 3 ⟨0, 0⟩ 1
    (by rfl) (by rfl) rfl rfl rfl
    (by norm_num [gestureParams, ratAtan2])
    (by norm_num)

/-! ### C4: image resize and aspect ratio -/

/-- Counterexample to C4 as stated: shrinking a 100×40 image (aspect 2.5)
from the `br` handle by a local delta of (-80, 0) proposes 20×8; the 20-unit
minimum clamp, applied after aspect correction, turns this into 20×20, so the
committed aspect ratio is 1, not 2.5. -/
theorem image_resize_aspect_counterexample :
    ¬((resizeImageCommit ⟨0, 0, 100, 40, 0⟩ Corner.br ⟨50, 20⟩ ⟨-30, 20⟩).width /
        (resizeImageCommit ⟨0, 0, 100, 40, 0⟩ Corner.br ⟨50, 20⟩ ⟨-30, 20⟩).height =
        (100 : ℚ) / 40 ∧
      20 ≤ (resizeImageCommit ⟨0, 0, 100, 40, 0⟩ Corner.br ⟨50, 20⟩ ⟨-30, 20⟩).width ∧
      20 ≤ (resizeImageCommit ⟨0, 0, 100, 40, 0⟩ Corner.br ⟨50, 20⟩ ⟨-30, 20⟩).height) := by
  have hps : imageProposedSize ⟨0, 0, 100, 40, 0⟩ Corner.br ⟨50, 20⟩ ⟨-30, 20⟩ = (20, 8) := by
    norm_num [imageProposedSize, imageLocalDelta, ratSin, ratCos]
  have hw : (resizeImageCommit ⟨0, 0, 100, 40, 0⟩ Corner.br ⟨50, 20⟩ ⟨-30, 20⟩).width = 20 := by
    simp [resizeImageCommit, hps]
  have hh : (resizeImageCommit ⟨0, 0, 100, 40, 0⟩ Corner.br ⟨50, 20⟩ ⟨-30, 20⟩).height = 20 := by
    simp [resizeImageCommit, hps]
    norm_num [max_eq_left]
  rw [hw, hh]
  norm_num

/-- C4 as amended: the committed transform of a single-image corner-resize
gesture preserves the aspect ratio whenever the aspect-corrected proposed
width and height are both at least the 20-unit minimum (so the clamp does not
engage); the committed width and height are never below 20. -/
theorem image_resize_aspect (initial : ImageTransform) (handle : Corner)
    (startPoint coords : Point)
    (hw : 0 < initial.width) (hh : 0 < initial.height)
    (hpw : 20 ≤ (imageProposedSize initial handle startPoint coords).1)
    (hph : 20 ≤ (imageProposedSize initial handle startPoint coords).2) :
    (resizeImageCommit initial handle startPoint coords).width /
        (resizeImageCommit initial handle startPoint coords).height =
      initial.width / initial.height ∧
    20 ≤ (resizeImageCommit initial handle startPoint coords).width ∧
    20 ≤ (resizeImageCommit initial handle startPoint coords).height := by
  have hWval : (resizeImageCommit initial handle startPoint coords).width =
      (imageProposedSize initial handle startPoint coords).1 := by
    simp [resizeImageCommit, max_eq_right hpw]
  have hHval : (resizeImageCommit initial handle startPoint coords).height =
      (imageProposedSize initial handle startPoint coords).2 := by
    simp [resizeImageCommit, max_eq_right hph]
  have hratio : (imageProposedSize initial handle startPoint coords).1 * initial.height =
      (imageProposedSize initial handle startPoint coords).2 * initial.width := by
    have hwne : initial.width ≠ 0 := ne_of_gt hw
    have hhne : initial.height ≠ 0 := ne_of_gt hh
    cases handle <;> dsimp only [imageProposedSize] <;> split <;>
      (dsimp only; field_simp; try ring)
  refine ⟨?_, ?_, ?_⟩
  · rw [hWval, hHval]
    have hphpos : (0 : ℚ) < (imageProposedSize initial handle startPoint coords).2 := by
      linarith
    rw [div_eq_div_iff (ne_of_gt hphpos) (ne_of_gt hh)]
    linarith [hratio]
  · rw [hWval]; exact hpw
  · rw [hHval]; exact hph

/-- Witness for C4 (amended) at a concrete clamp-free gesture: growing a
100×40 image from the `br` handle by a local delta of (20, 0) proposes
120×48, which commits unchanged with ratio 120/48 = 100/40. -/
theorem image_resize_aspect_witness :
    (resizeImageCommit ⟨0, 0, 100, 40, 0⟩ Corner.br ⟨50, 20⟩ ⟨70, 20⟩).width /
        (resizeImageCommit ⟨0, 0, 100, 40, 0⟩ Corner.br ⟨50, 20⟩ ⟨70, 20⟩).height =
      (100 : ℚ) / 40 ∧
    20 ≤ (resizeImageCommit ⟨0, 0, 100, 40, 0⟩ Corner.br ⟨50, 20⟩ ⟨70, 20⟩).width ∧
    20 ≤ (resizeImageCommit ⟨0, 0, 100, 40, 0⟩ Corner.br ⟨50, 20⟩ ⟨70, 20⟩).height := by
  have hps : imageProposedSize ⟨0, 0, 100, 40, 0⟩ Corner.br ⟨50, 20⟩ ⟨70, 20⟩ = (120, 48) := by
    norm_num [imageProposedSize, imageLocalDelta, ratSin, ratCos]
  have := image_resize_aspect ⟨0, 0, 100, 40, 0⟩ Corner.br ⟨50, 20⟩ ⟨70, 20⟩
    (by norm_num) (by norm_num) (by rw [hps]; norm_num) (by rw [hps]; norm_num)
  simpa using this

/-! ### C1: the erasure-split example -/

/-- Ceiling of the concrete sampling length used by the erasure-split
example. -/
theorem natCeil_ten : natCeil (10 : ℚ) = 10 := by
  norm_num [natCeil]
  rfl

/-- C1 (amended, exact output): erasing the straight pen stroke
`[(0,0),(10,0),(20,0),(30,0)]` of lineWidth 2 with the single-point eraser of
lineWidth 4 at `(15,0)` marks the stroke for deletion and yields exactly the
two pen fragments `[(0,0),(10,0)]` and `[(20,0),(30,0)]`: pen fragments keep
only surviving original points, so each boundary falls at the last surviving
original point rather than within one sampling step of the erase boundary. -/
theorem erasure_split_exact :
    applyErasure eraserC1 [penC1] =
      (["s1"],
       [{ id := "s1#frag", points := [⟨0, 0⟩, ⟨10, 0⟩], color := "black", lineWidth := 2,
          tool := DrawingTool.pen },
        { id := "s1#frag", points := [⟨20, 0⟩, ⟨30, 0⟩], color := "black", lineWidth := 2,
          tool := DrawingTool.pen }]) := by
  have hbe : getStrokeBounds eraserC1 = some ⟨15, 0, 0, 0⟩ := by
    simp [eraserC1, getStrokeBounds, pointsEnvelope]
  have hbs : getStrokeBounds penC1 = some ⟨0, 0, 30, 0⟩ := by
    simp [penC1, getStrokeBounds, pointsEnvelope]
    norm_num
  have hP0 : isPointErased ⟨0, 0⟩ eraserC1 1 = false := by
    norm_num [isPointErased, eraserC1]
  have hP10 : isPointErased ⟨10, 0⟩ eraserC1 1 = false := by
    norm_num [isPointErased, eraserC1]
  have hP20 : isPointErased ⟨20, 0⟩ eraserC1 1 = false := by
    norm_num [isPointErased, eraserC1]
  have hP30 : isPointErased ⟨30, 0⟩ eraserC1 1 = false := by
    norm_num [isPointErased, eraserC1]
  have hr9 : List.range 9 = [0, 1, 2, 3, 4, 5, 6, 7, 8] := rfl
  have hs01 : segErasedBetween eraserC1 1 ⟨0, 0⟩ ⟨10, 0⟩ = false := by
    norm_num [segErasedBetween, hypot_ten_zero, natCeil_ten, hr9, isPointErased, eraserC1]
  have hs12 : segErasedBetween eraserC1 1 ⟨10, 0⟩ ⟨20, 0⟩ = true := by
    norm_num [segErasedBetween, hypot_ten_zero, natCeil_ten, hr9, isPointErased, eraserC1]
  have hs23 : segErasedBetween eraserC1 1 ⟨20, 0⟩ ⟨30, 0⟩ = false := by
    norm_num [segErasedBetween, hypot_ten_zero, natCeil_ten, hr9, isPointErased, eraserC1]
  have hwalk : penWalk eraserC1 1 [⟨0, 0⟩, ⟨10, 0⟩, ⟨20, 0⟩, ⟨30, 0⟩] [] [] false =
      ([[⟨0, 0⟩, ⟨10, 0⟩], [⟨20, 0⟩, ⟨30, 0⟩]], true) := by
    norm_num [penWalk, hP0, hP10, hP20, hP30, hs01, hs12, hs23]
  have hsegs : strokeSegments penC1 =
      [(⟨0, 0⟩, ⟨10, 0⟩), (⟨10, 0⟩, ⟨20, 0⟩), (⟨20, 0⟩, ⟨30, 0⟩)] := by
    norm_num [strokeSegments, penC1, consecutiveSegments]
  have htoolp : penC1.tool = DrawingTool.pen := rfl
  have hptsp : penC1.points = [⟨0, 0⟩, ⟨10, 0⟩, ⟨20, 0⟩, ⟨30, 0⟩] := rfl
  have hlwp : penC1.lineWidth = 2 := rfl
  have hcontrib : eraseContribution eraserC1 ⟨15, 0, 0, 0⟩ penC1 =
      some [[⟨0, 0⟩, ⟨10, 0⟩], [⟨20, 0⟩, ⟨30, 0⟩]] := by
    norm_num [eraseContribution, hbs, doRectsIntersect, hsegs, htoolp, hptsp, hlwp, hwalk,
      eq_false (show ¬(DrawingTool.pen = DrawingTool.eraser) by decide)]
  have hid : penC1.id = "s1" := rfl
  have hcol : penC1.color = "black" := rfl
  have happ : "s1" ++ "#frag" = "s1#frag" := rfl
  norm_num [applyErasure, hbe, hcontrib, hid, hcol, hlwp, happ, List.filterMap_cons,
    List.filterMap_nil]

/-- Counterexample to C1 as stated: at the spec's own example input, the two
fragments are `[(0,0),(10,0)]` and `[(20,0),(30,0)]`, so neither fragment has
an extreme x-coordinate within one sampling unit of the stated boundaries 13
and 17 — in either order. -/
theorem erasure_split_counterexample :
    ¬((applyErasure eraserC1 [penC1]).1 = [penC1.id] ∧
      ∃ f1 f2, (applyErasure eraserC1 [penC1]).2 = [f1, f2] ∧
        f1.tool = DrawingTool.pen ∧ f2.tool = DrawingTool.pen ∧
        1 < f1.points.length ∧ 1 < f2.points.length ∧
        ((coversApprox f1.points 0 13 ∧ coversApprox f2.points 17 30) ∨
         (coversApprox f1.points 17 30 ∧ coversApprox f2.points 0 13))) := by
  rw [erasure_split_exact]
  rintro ⟨-, f1, f2, heq, -, -, -, -, hcov⟩
  injection heq with h1 h2
  injection h2 with h2 h3
  subst h1
  subst h2
  rcases hcov with ⟨hc1, -⟩ | ⟨hc1, -⟩ <;>
    · rcases hc1 with ⟨-, hmin, hmax⟩
      norm_num [minX, maxX] at hmin hmax

end WB
